import Mathlib

/-!
Verification development for the task lifecycle and time-tracking engine of
the infinitum-crm server.  The definitions below are a shallow embedding of
src/models/Task.js (the mongoose schema methods and pre-save middleware) and
src/controllers/taskController.js (the HTTP-facing operations).  Timestamps
are modelled as integers (milliseconds), user ids as naturals, and the mongoose
document state (modified-paths tracking, isNew flag) is carried explicitly.
-/

namespace TaskEngine

/-- TASK_STATUS from src/config/constants.js, as used by the schema enum. -/
inductive TaskStatus
  | pending
  | inProgress
  | completed
  | cancelled
  | overdue
deriving DecidableEq, Repr

/-- TASK_PRIORITY values. -/
inductive Priority
  | low
  | medium
  | high
  | urgent
deriving DecidableEq, Repr

/-- One entry of timeTracking.sessions: startTime, endTime, duration, notes. -/
structure Session where
  startTime : Int
  endTime : Int
  duration : Int
  notes : String
deriving DecidableEq, Repr

/-- One entry of statusHistory: status, changedBy, changedAt, reason. -/
structure HistoryEntry where
  status : TaskStatus
  changedBy : Nat
  changedAt : Int
  reason : String
deriving DecidableEq, Repr

/-- One entry of comments: user, message, timestamp. -/
structure TaskComment where
  user : Nat
  message : String
  timestamp : Int
deriving DecidableEq, Repr

/-- The timeTracking sub-document of the schema. -/
structure TimeTracking where
  totalTimeSpent : Int := 0
  sessions : List Session := []
  isActive : Bool := false
  currentSessionStart : Option Int := none
deriving DecidableEq, Repr

/-- The Task document (fields of taskSchema relevant to the claims, plus the
two instance-level properties modifiedBy and statusChangeReason that the
pre-save middleware reads; the source never assigns statusChangeReason). -/
structure Task where
  title : String
  description : String
  assignedTo : Nat
  assignedBy : Nat
  status : TaskStatus := .pending
  priority : Priority := .medium
  dueDate : Int
  startDate : Option Int := none
  completedDate : Option Int := none
  estimatedHours : Option Int := none
  timeTracking : TimeTracking := {}
  category : String := "general"
  tags : List String := []
  comments : List TaskComment := []
  statusHistory : List HistoryEntry := []
  createdAt : Int := 0
  updatedAt : Int := 0
  modifiedBy : Option Nat := none
  statusChangeReason : Option String := none
deriving DecidableEq, Repr

/-- A mongoose document: the task value together with the modified-paths flag
for the status path (isModified "status") and the isNew flag. -/
structure Doc where
  task : Task
  statusModified : Bool := false
  isNew : Bool := false
deriving DecidableEq, Repr

/-- Assignment to the status path.  Mongoose marks the path modified only when
the assigned value differs from the current one. -/
def Doc.setStatus (d : Doc) (s : TaskStatus) : Doc :=
  { d with task := { d.task with status := s },
           statusModified := d.statusModified || d.task.status != s }

/-- The synchronous state mutation performed by stopTimeTracking in
src/models/Task.js: computes duration = endTime - startTime (a null
currentSessionStart coerces to 0 in the JS subtraction, modelled by getD 0),
appends the session record, adds the duration to totalTimeSpent, and clears
isActive and currentSessionStart. -/
def stopSessionState (now : Int) (notes : String) (t : Task) : Task :=
  let startTime := t.timeTracking.currentSessionStart.getD 0
  let duration := now - startTime
  { t with timeTracking :=
    { t.timeTracking with
        sessions := t.timeTracking.sessions ++
          [{ startTime := startTime, endTime := now, duration := duration, notes := notes }],
        totalTimeSpent := t.timeTracking.totalTimeSpent + duration,
        isActive := false,
        currentSessionStart := none } }

/-- The statusHistory.push performed by the first pre-save middleware:
changedBy falls back to assignedBy, reason falls back to "Status updated". -/
def pushHistory (now : Int) (t : Task) : Task :=
  { t with statusHistory := t.statusHistory ++
      [{ status := t.status,
         changedBy := t.modifiedBy.getD t.assignedBy,
         changedAt := now,
         reason := t.statusChangeReason.getD "Status updated" }] }

/-- The completion branch of the first pre-save middleware: on Completed it
sets completedDate and, when a session is active, stops it (the middleware
invokes stopTimeTracking with default empty notes; its state mutation is
synchronous, the nested save it triggers re-persists the same state). -/
def applyCompletedHook (now : Int) (t : Task) : Task :=
  if t.status = .completed then
    if t.timeTracking.isActive then
      stopSessionState now "" { t with completedDate := some now }
    else
      { t with completedDate := some now }
  else t

/-- The start-date branch of the first pre-save middleware: on InProgress an
unset startDate is initialised. -/
def applyStartDateHook (now : Int) (t : Task) : Task :=
  if t.status == TaskStatus.inProgress && t.startDate.isNone then
    { t with startDate := some now }
  else t

/-- First pre-save middleware of taskSchema (src/models/Task.js lines 241-265):
runs only when the status path is modified on a non-new document. -/
def preSaveStatusHistory (now : Int) (d : Doc) : Doc :=
  if d.statusModified && !d.isNew then
    { d with task := applyStartDateHook now (applyCompletedHook now (pushHistory now d.task)) }
  else d

/-- Second pre-save middleware (src/models/Task.js lines 268-276): promotes a
past-due task to Overdue unless it is Completed, Cancelled, or already
Overdue.  This runs after the history middleware, so the promotion itself
never appends a history entry in the same save. -/
def preSaveOverdue (now : Int) (d : Doc) : Doc :=
  if d.task.dueDate < now ∧ d.task.status ≠ .completed ∧
     d.task.status ≠ .cancelled ∧ d.task.status ≠ .overdue then
    { d with task := { d.task with status := .overdue } }
  else d

/-- document.save(): runs the two pre-save middlewares in registration order,
persists, and resets the modified-paths and isNew flags. -/
def saveDoc (now : Int) (d : Doc) : Doc :=
  let d := preSaveStatusHistory now d
  let d := preSaveOverdue now d
  { d with statusModified := false, isNew := false }

/-- The mutation performed by startTimeTracking before its save: sets isActive
and currentSessionStart, and promotes Pending to InProgress. -/
def startSessionState (now : Int) (d : Doc) : Doc :=
  let d2 : Doc := { d with task := { d.task with timeTracking :=
    { d.task.timeTracking with isActive := true, currentSessionStart := some now } } }
  if d2.task.status = .pending then d2.setStatus .inProgress else d2

/-- taskSchema.methods.startTimeTracking: fails when a session is already
active; otherwise sets isActive and currentSessionStart, promotes Pending to
InProgress, and saves. -/
def startTimeTracking (now : Int) (d : Doc) : Except String Doc :=
  if d.task.timeTracking.isActive then
    .error "Time tracking is already active for this task"
  else
    .ok (saveDoc now (startSessionState now d))

/-- taskSchema.methods.stopTimeTracking: fails when no session is active;
otherwise applies the session-closing mutation and saves. -/
def stopTimeTracking (now : Int) (notes : String) (d : Doc) : Except String Doc :=
  if !d.task.timeTracking.isActive then
    .error "No active time tracking session for this task"
  else
    .ok (saveDoc now { d with task := stopSessionState now notes d.task })

/-- taskSchema.methods.markAsCompleted: sets status, completedDate, and
modifiedBy, stops an active tracking session with notes "Task completed"
(which itself saves), then saves. -/
def markAsCompleted (now : Int) (userId : Nat) (d : Doc) : Doc :=
  let d := d.setStatus .completed
  let d := { d with task := { d.task with completedDate := some now, modifiedBy := some userId } }
  let d := if d.task.timeTracking.isActive then
             match stopTimeTracking now "Task completed" d with
             | .ok d2 => d2
             | .error _ => d
           else d
  saveDoc now d

/-- USER_ROLES values relevant to the task controller. -/
inductive Role
  | admin
  | projectManager
  | employee
deriving DecidableEq, Repr

/-- The authenticated principal (req.user): id, role, and designation. -/
structure Principal where
  id : Nat
  role : Role
  designation : String
deriving DecidableEq, Repr

/-- Outcome of a controller call, keyed by the HTTP status it responds with:
ok 200, notFound 404, forbidden 403, badRequest 400. -/
inductive Response (α : Type)
  | ok (value : α)
  | notFound
  | forbidden (error : String)
  | badRequest (error : String)
deriving DecidableEq, Repr

/-- TaskController.getTaskById: 404 when missing; an Employee principal who is
not the assignee is denied; otherwise the stored task is returned as is. -/
def getTaskById (user : Principal) (stored : Option Task) : Response Task :=
  match stored with
  | none => .notFound
  | some task =>
    if user.role = .employee ∧ task.assignedTo ≠ user.id then
      .forbidden "You can only view your own tasks"
    else
      .ok task

/-- One field of a sanitized update request body. -/
inductive FieldUpdate
  | setStatus (v : TaskStatus)
  | setComments (v : List TaskComment)
  | setTitle (v : String)
  | setDescription (v : String)
  | setPriority (v : Priority)
  | setDueDate (v : Int)
  | setEstimatedHours (v : Option Int)
  | setCategory (v : String)
  | setTags (v : List String)
  | setAssignedTo (v : Nat)
deriving DecidableEq, Repr

/-- The request-body key a FieldUpdate came from (Object.keys of the body). -/
def FieldUpdate.fieldName : FieldUpdate → String
  | .setStatus _ => "status"
  | .setComments _ => "comments"
  | .setTitle _ => "title"
  | .setDescription _ => "description"
  | .setPriority _ => "priority"
  | .setDueDate _ => "dueDate"
  | .setEstimatedHours _ => "estimatedHours"
  | .setCategory _ => "category"
  | .setTags _ => "tags"
  | .setAssignedTo _ => "assignedTo"

/-- Direct application of one body field to the stored document. -/
def applyField (t : Task) : FieldUpdate → Task
  | .setStatus v => { t with status := v }
  | .setComments v => { t with comments := v }
  | .setTitle v => { t with title := v }
  | .setDescription v => { t with description := v }
  | .setPriority v => { t with priority := v }
  | .setDueDate v => { t with dueDate := v }
  | .setEstimatedHours v => { t with estimatedHours := v }
  | .setCategory v => { t with category := v }
  | .setTags v => { t with tags := v }
  | .setAssignedTo v => { t with assignedTo := v }

/-- Task.findByIdAndUpdate(id, \x7b...sanitizedData, updatedAt: new Date()\x7d):
a direct update of the stored fields.  It does not run the save middlewares
of the schema (mongoose findByIdAndUpdate bypasses pre-save hooks), so no
statusHistory entry is produced here. -/
def findByIdAndUpdate (now : Int) (body : List FieldUpdate) (t : Task) : Task :=
  { body.foldl applyField t with updatedAt := now }

/-- The update whitelist for Employee principals in TaskController.updateTask. -/
def allowedEmployeeFields : List String := ["status", "comments"]

/-- TaskController.updateTask: 404 when missing; an Employee who is not the
assignee is denied; an Employee whose body holds any field outside the
whitelist is denied with no change; otherwise the body is applied through
findByIdAndUpdate.  The second component is the stored state afterward. -/
def updateTask (now : Int) (user : Principal) (stored : Option Task)
    (body : List FieldUpdate) : Response Task × Option Task :=
  match stored with
  | none => (.notFound, none)
  | some task =>
    if user.role = .employee ∧ task.assignedTo ≠ user.id then
      (.forbidden "You can only update your own tasks", some task)
    else if user.role = .employee ∧
        body.any (fun fu => !(allowedEmployeeFields.contains fu.fieldName)) then
      (.forbidden "Employees can only update: status, comments", some task)
    else
      let t := findByIdAndUpdate now body task
      (.ok t, some t)

/-- TaskController.deleteTask: 404 when missing; allowed for Admin,
ProjectManager, and Employee with the project_manager designation (no check
of any relationship to the task); otherwise 403.  The second component is the
stored state afterward (none once deleted). -/
def deleteTask (user : Principal) (stored : Option Task) :
    Response Unit × Option Task :=
  match stored with
  | none => (.notFound, none)
  | some task =>
    if user.role = .admin ∨ user.role = .projectManager ∨
       (user.role = .employee ∧ user.designation = "project_manager") then
      (.ok (), none)
    else
      (.forbidden "Only administrators and project managers can delete tasks", some task)

/-- TaskController.startTask: 404 when missing; only the assignee may start;
the AlreadyActive failure of startTimeTracking is surfaced as 400 (the
controller matches "already active" in the message) and leaves the stored
state unchanged. -/
def startTask (now : Int) (user : Principal) (stored : Option Doc) :
    Response Doc × Option Doc :=
  match stored with
  | none => (.notFound, none)
  | some d =>
    if d.task.assignedTo ≠ user.id then
      (.forbidden "You can only start tasks assigned to you", some d)
    else
      match startTimeTracking now d with
      | .ok d2 => (.ok d2, some d2)
      | .error msg => (.badRequest msg, some d)

/-- TaskController.stopTask: analogous to startTask for stopTimeTracking. -/
def stopTask (now : Int) (user : Principal) (notes : String) (stored : Option Doc) :
    Response Doc × Option Doc :=
  match stored with
  | none => (.notFound, none)
  | some d =>
    if d.task.assignedTo ≠ user.id then
      (.forbidden "You can only stop tasks assigned to you", some d)
    else
      match stopTimeTracking now notes d with
      | .ok d2 => (.ok d2, some d2)
      | .error msg => (.badRequest msg, some d)

/-- TaskController.completeTask: 404 when missing; only the assignee may
complete; otherwise markAsCompleted is applied. -/
def completeTask (now : Int) (user : Principal) (stored : Option Doc) :
    Response Doc × Option Doc :=
  match stored with
  | none => (.notFound, none)
  | some d =>
    if d.task.assignedTo ≠ user.id then
      (.forbidden "You can only complete tasks assigned to you", some d)
    else
      let d2 := markAsCompleted now user.id d
      (.ok d2, some d2)

/-- TaskController.createTask, restricted to the document it persists: a new
Task with the given fields, saved with isNew set (so the history middleware
is skipped but the overdue middleware still runs). -/
def createTask (now : Int) (assigner : Nat) (title description : String)
    (assignedTo : Nat) (dueDate : Int) : Doc :=
  saveDoc now
    { task := { title := title, description := description,
                assignedTo := assignedTo, assignedBy := assigner,
                dueDate := dueDate, createdAt := now, updatedAt := now },
      statusModified := false,
      isNew := true }

/-- Case-insensitive substring test, modelling new RegExp(search, "i") applied
to a field (for search strings without regex metacharacters). -/
def listStartsWith : List Char → List Char → Bool
  | _, [] => true
  | [], _ :: _ => false
  | a :: as, b :: bs => a == b && listStartsWith as bs

/-- Does the second list contain the first as a contiguous run. -/
def listHasSub (pat : List Char) : List Char → Bool
  | [] => pat.isEmpty
  | c :: rest => listStartsWith (c :: rest) pat || listHasSub pat rest

/-- ASCII lowercasing of one character (the behaviour of the regex i flag on
the ASCII range relevant here). -/
def lowerChar (c : Char) : Char :=
  if 65 ≤ c.toNat ∧ c.toNat ≤ 90 then Char.ofNat (c.toNat + 32) else c

/-- Case-insensitive containment of pat in hay. -/
def containsCI (hay pat : String) : Bool :=
  listHasSub (pat.toList.map lowerChar) (hay.toList.map lowerChar)

/-- One alternative of a mongo $or clause as built by getAllTasks. -/
inductive OrClause
  | titleSearch (s : String)
  | descriptionSearch (s : String)
  | assignedToEq (u : Nat)
  | assignedByEq (u : Nat)
deriving DecidableEq, Repr

/-- Whether a task satisfies one $or alternative. -/
def orClauseHolds (t : Task) : OrClause → Bool
  | .titleSearch s => containsCI t.title s
  | .descriptionSearch s => containsCI t.description s
  | .assignedToEq u => t.assignedTo == u
  | .assignedByEq u => t.assignedBy == u

/-- The filter object built by TaskController.getAllTasks.  orClauses models
the single $or key of the object: assigning it a second time overwrites the
first value, exactly as in the source. -/
structure Filter where
  status : Option TaskStatus := none
  priority : Option Priority := none
  assignedTo : Option Nat := none
  assignedBy : Option Nat := none
  createdAtGte : Option Int := none
  createdAtLte : Option Int := none
  orClauses : Option (List OrClause) := none
deriving DecidableEq, Repr

/-- The optional query parameters of GET /api/tasks used for filtering. -/
structure Query where
  status : Option TaskStatus := none
  priority : Option Priority := none
  assignedTo : Option Nat := none
  assignedBy : Option Nat := none
  search : Option String := none
  startDate : Option Int := none
  endDate : Option Int := none
deriving DecidableEq, Repr

/-- Whether a task matches the filter (mongo find semantics). -/
def filterAccepts (f : Filter) (t : Task) : Bool :=
  f.status.all (fun s => t.status == s) &&
  f.priority.all (fun p => t.priority == p) &&
  f.assignedTo.all (fun u => t.assignedTo == u) &&
  f.assignedBy.all (fun u => t.assignedBy == u) &&
  f.createdAtGte.all (fun a => decide (a ≤ t.createdAt)) &&
  f.createdAtLte.all (fun b => decide (t.createdAt ≤ b)) &&
  f.orClauses.all (fun cs => cs.any (orClauseHolds t))

/-- Filter construction of TaskController.getAllTasks, in source order: user
criteria, date range, search (written to the $or key), then role-based
narrowing.  For an Employee with the project_manager designation the role
step assigns the $or key again, replacing any search clauses; for a plain
Employee it constrains the separate assignedTo key. -/
def buildFilter (user : Principal) (q : Query) : Filter :=
  let f : Filter := { status := q.status, priority := q.priority,
                      assignedTo := q.assignedTo, assignedBy := q.assignedBy,
                      createdAtGte := q.startDate, createdAtLte := q.endDate }
  let f := match q.search with
    | some s => { f with orClauses := some [.titleSearch s, .descriptionSearch s] }
    | none => f
  if user.role = .employee then
    if user.designation = "project_manager" then
      { f with orClauses := some [.assignedToEq user.id, .assignedByEq user.id] }
    else
      { f with assignedTo := some user.id }
  else f

/-- TaskController.getAllTasks restricted to which tasks are returned
(pagination and sorting do not change membership of the result set). -/
def getAllTasks (user : Principal) (q : Query) (store : List Task) : List Task :=
  store.filter (filterAccepts (buildFilter user q))

/-! Basic lemmas about the save middlewares. -/

theorem applyCompletedHook_status (now : Int) (t : Task) :
    (applyCompletedHook now t).status = t.status := by
  unfold applyCompletedHook stopSessionState
  split_ifs <;> rfl

theorem applyStartDateHook_status (now : Int) (t : Task) :
    (applyStartDateHook now t).status = t.status := by
  unfold applyStartDateHook
  split_ifs <;> rfl

theorem applyCompletedHook_dueDate (now : Int) (t : Task) :
    (applyCompletedHook now t).dueDate = t.dueDate := by
  unfold applyCompletedHook stopSessionState
  split_ifs <;> rfl

theorem applyStartDateHook_dueDate (now : Int) (t : Task) :
    (applyStartDateHook now t).dueDate = t.dueDate := by
  unfold applyStartDateHook
  split_ifs <;> rfl

theorem preSaveStatusHistory_status (now : Int) (d : Doc) :
    (preSaveStatusHistory now d).task.status = d.task.status := by
  unfold preSaveStatusHistory
  split_ifs
  · rw [show ({ d with task := applyStartDateHook now (applyCompletedHook now (pushHistory now d.task)) } : Doc).task
          = applyStartDateHook now (applyCompletedHook now (pushHistory now d.task)) from rfl,
        applyStartDateHook_status, applyCompletedHook_status]
    rfl
  · rfl

theorem preSaveStatusHistory_dueDate (now : Int) (d : Doc) :
    (preSaveStatusHistory now d).task.dueDate = d.task.dueDate := by
  unfold preSaveStatusHistory
  split_ifs
  · rw [show ({ d with task := applyStartDateHook now (applyCompletedHook now (pushHistory now d.task)) } : Doc).task
          = applyStartDateHook now (applyCompletedHook now (pushHistory now d.task)) from rfl,
        applyStartDateHook_dueDate, applyCompletedHook_dueDate]
    rfl
  · rfl

theorem preSaveStatusHistory_skip (now : Int) (d : Doc)
    (h : (d.statusModified && !d.isNew) = false) :
    preSaveStatusHistory now d = d := by
  unfold preSaveStatusHistory
  rw [if_neg (by simp [h])]

theorem preSaveOverdue_skip_completed (now : Int) (d : Doc)
    (h : d.task.status = .completed) :
    preSaveOverdue now d = d := by
  unfold preSaveOverdue
  rw [if_neg]
  rintro ⟨-, hne, -, -⟩
  exact hne h

theorem preSaveOverdue_fire (now : Int) (d : Doc)
    (hdue : d.task.dueDate < now)
    (h1 : d.task.status ≠ .completed) (h2 : d.task.status ≠ .cancelled)
    (h3 : d.task.status ≠ .overdue) :
    preSaveOverdue now d = { d with task := { d.task with status := .overdue } } := by
  unfold preSaveOverdue
  rw [if_pos ⟨hdue, h1, h2, h3⟩]

theorem saveDoc_status (now : Int) (d : Doc) :
    (saveDoc now d).task.status =
      (if d.task.dueDate < now ∧ d.task.status ≠ .completed ∧
          d.task.status ≠ .cancelled ∧ d.task.status ≠ .overdue
       then .overdue else d.task.status) := by
  have hs := preSaveStatusHistory_status now d
  have hd := preSaveStatusHistory_dueDate now d
  simp only [saveDoc, preSaveOverdue]
  rw [hs, hd]
  split_ifs with h
  · rfl
  · exact hs

theorem saveDoc_task_eq (now : Int) (d : Doc) :
    (saveDoc now d).task = (preSaveOverdue now (preSaveStatusHistory now d)).task := rfl

theorem preSaveOverdue_timeTracking (now : Int) (d : Doc) :
    (preSaveOverdue now d).task.timeTracking = d.task.timeTracking := by
  unfold preSaveOverdue
  split_ifs <;> rfl

theorem preSaveOverdue_statusHistory (now : Int) (d : Doc) :
    (preSaveOverdue now d).task.statusHistory = d.task.statusHistory := by
  unfold preSaveOverdue
  split_ifs <;> rfl

theorem preSaveOverdue_completedDate (now : Int) (d : Doc) :
    (preSaveOverdue now d).task.completedDate = d.task.completedDate := by
  unfold preSaveOverdue
  split_ifs <;> rfl

theorem applyCompletedHook_skip (now : Int) (t : Task) (h : t.status ≠ .completed) :
    applyCompletedHook now t = t := by
  unfold applyCompletedHook
  rw [if_neg h]

theorem applyCompletedHook_inactive_timeTracking (now : Int) (t : Task)
    (h : t.timeTracking.isActive = false) :
    (applyCompletedHook now t).timeTracking = t.timeTracking := by
  unfold applyCompletedHook
  split_ifs with h1 h2
  · exact absurd h2 (by simp [h])
  · rfl
  · rfl

theorem applyStartDateHook_timeTracking (now : Int) (t : Task) :
    (applyStartDateHook now t).timeTracking = t.timeTracking := by
  unfold applyStartDateHook
  split_ifs <;> rfl

theorem applyStartDateHook_statusHistory (now : Int) (t : Task) :
    (applyStartDateHook now t).statusHistory = t.statusHistory := by
  unfold applyStartDateHook
  split_ifs <;> rfl

theorem applyStartDateHook_completedDate (now : Int) (t : Task) :
    (applyStartDateHook now t).completedDate = t.completedDate := by
  unfold applyStartDateHook
  split_ifs <;> rfl

theorem preSaveStatusHistory_timeTracking_inactive (now : Int) (d : Doc)
    (h : d.task.timeTracking.isActive = false) :
    (preSaveStatusHistory now d).task.timeTracking = d.task.timeTracking := by
  unfold preSaveStatusHistory
  split_ifs
  · show (applyStartDateHook now (applyCompletedHook now (pushHistory now d.task))).timeTracking = _
    rw [applyStartDateHook_timeTracking, applyCompletedHook_inactive_timeTracking]
    · rfl
    · exact h
  · rfl

theorem preSaveStatusHistory_timeTracking_notCompleted (now : Int) (d : Doc)
    (h : d.task.status ≠ .completed) :
    (preSaveStatusHistory now d).task.timeTracking = d.task.timeTracking := by
  unfold preSaveStatusHistory
  split_ifs
  · show (applyStartDateHook now (applyCompletedHook now (pushHistory now d.task))).timeTracking = _
    rw [applyStartDateHook_timeTracking, applyCompletedHook_skip]
    · rfl
    · exact h
  · rfl

theorem saveDoc_timeTracking_inactive (now : Int) (d : Doc)
    (h : d.task.timeTracking.isActive = false) :
    (saveDoc now d).task.timeTracking = d.task.timeTracking := by
  rw [saveDoc_task_eq, preSaveOverdue_timeTracking,
      preSaveStatusHistory_timeTracking_inactive now d h]

theorem saveDoc_timeTracking_notCompleted (now : Int) (d : Doc)
    (h : d.task.status ≠ .completed) :
    (saveDoc now d).task.timeTracking = d.task.timeTracking := by
  rw [saveDoc_task_eq, preSaveOverdue_timeTracking,
      preSaveStatusHistory_timeTracking_notCompleted now d h]

theorem saveDoc_timeTracking_modFalse (now : Int) (d : Doc)
    (h : d.statusModified = false) :
    (saveDoc now d).task.timeTracking = d.task.timeTracking := by
  rw [saveDoc_task_eq, preSaveOverdue_timeTracking,
      preSaveStatusHistory_skip now d (by simp [h])]

theorem saveDoc_statusHistory_modFalse (now : Int) (d : Doc)
    (h : d.statusModified = false) :
    (saveDoc now d).task.statusHistory = d.task.statusHistory := by
  rw [saveDoc_task_eq, preSaveOverdue_statusHistory,
      preSaveStatusHistory_skip now d (by simp [h])]

theorem preSaveStatusHistory_fire_completed_inactive (now : Int) (d : Doc)
    (hMod : d.statusModified = true) (hNew : d.isNew = false)
    (hc : d.task.status = .completed) (hact : d.task.timeTracking.isActive = false) :
    (preSaveStatusHistory now d).task
      = { d.task with
          statusHistory := d.task.statusHistory ++
            [{ status := d.task.status,
               changedBy := d.task.modifiedBy.getD d.task.assignedBy,
               changedAt := now,
               reason := d.task.statusChangeReason.getD "Status updated" }],
          completedDate := some now } := by
  unfold preSaveStatusHistory
  rw [if_pos (by simp [hMod, hNew])]
  show applyStartDateHook now (applyCompletedHook now (pushHistory now d.task)) = _
  unfold applyCompletedHook
  rw [if_pos (show (pushHistory now d.task).status = .completed from hc)]
  rw [if_neg (show ¬((pushHistory now d.task).timeTracking.isActive = true) by
    rw [show (pushHistory now d.task).timeTracking.isActive = d.task.timeTracking.isActive from rfl,
        hact]
    simp)]
  unfold applyStartDateHook
  rw [if_neg (show ¬(((({ pushHistory now d.task with completedDate := some now } : Task).status ==
        TaskStatus.inProgress) && ({ pushHistory now d.task with completedDate := some now } : Task).startDate.isNone) = true) by
    rw [show ({ pushHistory now d.task with completedDate := some now } : Task).status = d.task.status from rfl, hc]
    simp)]
  rfl

/-! The time-tracking invariant: totalTimeSpent is the sum of the session
durations (spec invariant 2). -/

def timeInvariant (t : Task) : Prop :=
  t.timeTracking.totalTimeSpent = (t.timeTracking.sessions.map Session.duration).sum

theorem timeInvariant_ext {t t2 : Task}
    (hts : t2.timeTracking.totalTimeSpent = t.timeTracking.totalTimeSpent)
    (hss : t2.timeTracking.sessions = t.timeTracking.sessions)
    (hinv : timeInvariant t) : timeInvariant t2 := by
  unfold timeInvariant at *
  rw [hts, hss]
  exact hinv

theorem stopSessionState_invariant (now : Int) (notes : String) (t : Task)
    (h : timeInvariant t) : timeInvariant (stopSessionState now notes t) := by
  unfold timeInvariant stopSessionState at *
  simp [h]

theorem applyCompletedHook_invariant (now : Int) (t : Task) (h : timeInvariant t) :
    timeInvariant (applyCompletedHook now t) := by
  unfold applyCompletedHook
  split_ifs with h1 h2
  · exact stopSessionState_invariant now "" _ (timeInvariant_ext rfl rfl h)
  · exact timeInvariant_ext rfl rfl h
  · exact h

theorem preSaveStatusHistory_invariant (now : Int) (d : Doc) (h : timeInvariant d.task) :
    timeInvariant (preSaveStatusHistory now d).task := by
  unfold preSaveStatusHistory
  split_ifs
  · show timeInvariant (applyStartDateHook now (applyCompletedHook now (pushHistory now d.task)))
    refine @timeInvariant_ext (applyCompletedHook now (pushHistory now d.task))
      (applyStartDateHook now (applyCompletedHook now (pushHistory now d.task))) ?_ ?_
      (applyCompletedHook_invariant now (pushHistory now d.task)
        (@timeInvariant_ext d.task (pushHistory now d.task) rfl rfl h))
    · rw [applyStartDateHook_timeTracking]
    · rw [applyStartDateHook_timeTracking]
  · exact h

theorem saveDoc_invariant (now : Int) (d : Doc) (h : timeInvariant d.task) :
    timeInvariant (saveDoc now d).task := by
  have h2 := preSaveStatusHistory_invariant now d h
  refine timeInvariant_ext ?_ ?_ h2 <;>
    rw [saveDoc_task_eq, preSaveOverdue_timeTracking]

theorem startSessionState_invariant (now : Int) (d : Doc) (h : timeInvariant d.task) :
    timeInvariant (startSessionState now d).task := by
  unfold startSessionState
  dsimp only
  split_ifs
  · exact timeInvariant_ext rfl rfl h
  · exact timeInvariant_ext rfl rfl h

theorem startTimeTracking_invariant {now : Int} {d d2 : Doc}
    (hok : startTimeTracking now d = .ok d2) (h : timeInvariant d.task) :
    timeInvariant d2.task := by
  unfold startTimeTracking at hok
  split_ifs at hok
  injection hok with h2
  subst h2
  exact saveDoc_invariant _ _ (startSessionState_invariant _ _ h)

theorem stopTimeTracking_invariant {now : Int} {notes : String} {d d2 : Doc}
    (hok : stopTimeTracking now notes d = .ok d2) (h : timeInvariant d.task) :
    timeInvariant d2.task := by
  unfold stopTimeTracking at hok
  split_ifs at hok
  injection hok with h2
  subst h2
  exact saveDoc_invariant _ _ (stopSessionState_invariant _ _ _ h)

/-- A start or stop call in a sequence of time-tracking operations. -/
inductive TrackOp
  | startOp (now : Int)
  | stopOp (now : Int) (notes : String)
deriving DecidableEq, Repr

/-- Applying one operation to the stored document; a domain error (conflict)
leaves the stored state unchanged. -/
def applyOp (d : Doc) : TrackOp → Doc
  | .startOp now =>
    match startTimeTracking now d with
    | .ok d2 => d2
    | .error _ => d
  | .stopOp now notes =>
    match stopTimeTracking now notes d with
    | .ok d2 => d2
    | .error _ => d

/-- Running a sequence of start/stop operations. -/
def runOps (d : Doc) (ops : List TrackOp) : Doc := ops.foldl applyOp d

theorem applyOp_invariant (d : Doc) (op : TrackOp) (h : timeInvariant d.task) :
    timeInvariant (applyOp d op).task := by
  cases op with
  | startOp now =>
    cases hcall : startTimeTracking now d with
    | ok d2 =>
      simp only [applyOp, hcall]
      exact startTimeTracking_invariant hcall h
    | error e => simp only [applyOp, hcall]; exact h
  | stopOp now notes =>
    cases hcall : stopTimeTracking now notes d with
    | ok d2 =>
      simp only [applyOp, hcall]
      exact stopTimeTracking_invariant hcall h
    | error e => simp only [applyOp, hcall]; exact h

theorem runOps_invariant (ops : List TrackOp) (d : Doc) (h : timeInvariant d.task) :
    timeInvariant (runOps d ops).task := by
  induction ops generalizing d with
  | nil => exact h
  | cons op rest ih =>
    exact ih (applyOp d op) (applyOp_invariant d op h)

theorem stopTimeTracking_ok (now : Int) (notes : String) (d : Doc)
    (hact : d.task.timeTracking.isActive = true) :
    stopTimeTracking now notes d
      = .ok (saveDoc now { d with task := stopSessionState now notes d.task }) := by
  unfold stopTimeTracking
  rw [if_neg (by simp [hact])]

/-! Lemmas about findByIdAndUpdate. -/

theorem applyField_statusHistory (t : Task) (fu : FieldUpdate) :
    (applyField t fu).statusHistory = t.statusHistory := by
  cases fu <;> rfl

theorem foldl_applyField_statusHistory (body : List FieldUpdate) (t : Task) :
    (body.foldl applyField t).statusHistory = t.statusHistory := by
  induction body generalizing t with
  | nil => rfl
  | cons fu rest ih => rw [List.foldl_cons, ih, applyField_statusHistory]

theorem findByIdAndUpdate_statusHistory (now : Int) (body : List FieldUpdate) (t : Task) :
    (findByIdAndUpdate now body t).statusHistory = t.statusHistory := by
  show (body.foldl applyField t).statusHistory = t.statusHistory
  exact foldl_applyField_statusHistory body t

/-! Concrete fixtures used by counterexamples and witnesses. -/

def adminUser : Principal := { id := 9, role := .admin, designation := "director" }

def plainEmployee : Principal := { id := 1, role := .employee, designation := "developer" }

def pmEmployee : Principal := { id := 1, role := .employee, designation := "project_manager" }

def sampleTask : Task :=
  { title := "t", description := "d", assignedTo := 1, assignedBy := 2, dueDate := 1000 }

def assignerOnlyTask : Task :=
  { title := "t", description := "d", assignedTo := 2, assignedBy := 1, dueDate := 1000 }

def foreignTask : Task :=
  { title := "t", description := "d", assignedTo := 3, assignedBy := 2, dueDate := 1000 }

def activeDoc : Doc :=
  { task := { title := "t", description := "d", assignedTo := 1, assignedBy := 2,
              dueDate := 1000, status := .inProgress,
              timeTracking := { totalTimeSpent := 0, sessions := [], isActive := true,
                                currentSessionStart := some 0 } } }

/-! Claim theorems. -/

/-- C1, counterexample: an admin update whose body includes status succeeds
but appends no statusHistory entry at all (the claim demands exactly one
entry with reason "Status updated"); here the history stays empty. -/
theorem C1_counterexample :
    (updateTask 100 adminUser (some sampleTask) [FieldUpdate.setStatus .inProgress]).1
      = .ok { sampleTask with status := .inProgress, updatedAt := 100 }
    ∧ ({ sampleTask with status := .inProgress, updatedAt := 100 } : Task).statusHistory = []
    ∧ sampleTask.statusHistory = []
    ∧ sampleTask.status ≠ .inProgress := by
  refine ⟨rfl, rfl, rfl, by decide⟩

/-- C1, amended: an updateFields request that includes status among the
updated fields appends no statusHistory entry: the controller applies the
body through findByIdAndUpdate, which bypasses the pre-save middleware, so
the history is always unchanged on this path. -/
theorem C1_update_appends_no_history (now : Int) (user : Principal) (task : Task)
    (body : List FieldUpdate) (t2 : Task)
    (h : (updateTask now user (some task) body).1 = .ok t2) :
    t2.statusHistory = task.statusHistory := by
  unfold updateTask at h
  dsimp only at h
  split_ifs at h
  dsimp only at h
  injection h with h2
  rw [← h2, findByIdAndUpdate_statusHistory]

/-- C1, witness for the amended theorem at a concrete input. -/
theorem C1_witness :
    (updateTask 100 adminUser (some sampleTask) [FieldUpdate.setStatus .overdue]).1
      = .ok (findByIdAndUpdate 100 [FieldUpdate.setStatus .overdue] sampleTask)
    ∧ (findByIdAndUpdate 100 [FieldUpdate.setStatus .overdue] sampleTask).statusHistory
      = sampleTask.statusHistory := by
  refine ⟨rfl, ?_⟩
  exact C1_update_appends_no_history 100 adminUser sampleTask
    [FieldUpdate.setStatus .overdue] _ rfl

/-- C4, confirmed: start on a task with an active session, called by the
assignee, is rejected with the AlreadyActive conflict (surfaced as a 400
badRequest by the controller) and the stored state is returned unchanged. -/
theorem C4_start_conflict (now : Int) (user : Principal) (d : Doc)
    (hassign : d.task.assignedTo = user.id)
    (hactive : d.task.timeTracking.isActive = true) :
    startTask now user (some d)
      = (.badRequest "Time tracking is already active for this task", some d) := by
  unfold startTask
  dsimp only
  rw [if_neg (by simp [hassign])]
  unfold startTimeTracking
  rw [if_pos hactive]

/-- C4, witness: the conflict at a concrete active document. -/
theorem C4_witness :
    activeDoc.task.assignedTo = plainEmployee.id
    ∧ activeDoc.task.timeTracking.isActive = true
    ∧ startTask 50 plainEmployee (some activeDoc)
        = (.badRequest "Time tracking is already active for this task", some activeDoc) :=
  ⟨rfl, rfl, C4_start_conflict 50 plainEmployee activeDoc rfl rfl⟩

/-- C6, counterexample: an Employee principal with the project_manager
designation who is the assigner but not the assignee of a task is denied
both get-by-id and update (the claim asserts both are permitted). -/
theorem C6_counterexample :
    assignerOnlyTask.assignedBy = pmEmployee.id
    ∧ assignerOnlyTask.assignedTo ≠ pmEmployee.id
    ∧ getTaskById pmEmployee (some assignerOnlyTask)
        = .forbidden "You can only view your own tasks"
    ∧ (updateTask 100 pmEmployee (some assignerOnlyTask) [FieldUpdate.setCategory "x"]).1
      = .forbidden "You can only update your own tasks" := by
  refine ⟨rfl, by decide, rfl, rfl⟩

/-- C6, amended: for Employee principals the get-by-id and update permission
checks compare only assignedTo with the caller, regardless of designation;
a non-assignee Employee (even the assigner holding the project_manager
designation) is denied with Forbidden and the stored task is unchanged. -/
theorem C6_nonassignee_employee_denied (now : Int) (u : Principal) (t : Task)
    (body : List FieldUpdate)
    (hrole : u.role = .employee) (hna : t.assignedTo ≠ u.id) :
    getTaskById u (some t) = .forbidden "You can only view your own tasks"
    ∧ updateTask now u (some t) body
        = (.forbidden "You can only update your own tasks", some t) := by
  constructor
  · unfold getTaskById
    dsimp only
    rw [if_pos (show u.role = Role.employee ∧ t.assignedTo ≠ u.id from ⟨hrole, hna⟩)]
  · unfold updateTask
    dsimp only
    rw [if_pos (show u.role = Role.employee ∧ t.assignedTo ≠ u.id from ⟨hrole, hna⟩)]

/-- C6, witness for the amended theorem at a concrete input. -/
theorem C6_witness :
    pmEmployee.role = .employee
    ∧ assignerOnlyTask.assignedTo ≠ pmEmployee.id
    ∧ getTaskById pmEmployee (some assignerOnlyTask)
        = .forbidden "You can only view your own tasks"
    ∧ updateTask 100 pmEmployee (some assignerOnlyTask) []
        = (.forbidden "You can only update your own tasks", some assignerOnlyTask) := by
  have h := C6_nonassignee_employee_denied 100 pmEmployee assignerOnlyTask [] rfl (by decide)
  exact ⟨rfl, by decide, h.1, h.2⟩

/-- C7, confirmed: for a plain Employee updating a task assigned to them, a
body holding any field outside \x7bstatus, comments\x7d is rejected whole with
Forbidden and the stored task is unchanged; a body whose fields all lie in
the whitelist is not denied on field grounds and is applied. -/
theorem C7_employee_field_whitelist (now : Int) (u : Principal) (t : Task)
    (body : List FieldUpdate)
    (hrole : u.role = .employee) (hassign : t.assignedTo = u.id) :
    (body.any (fun fu => !(allowedEmployeeFields.contains fu.fieldName)) = true →
      updateTask now u (some t) body
        = (.forbidden "Employees can only update: status, comments", some t))
    ∧ (body.any (fun fu => !(allowedEmployeeFields.contains fu.fieldName)) = false →
      updateTask now u (some t) body
        = (.ok (findByIdAndUpdate now body t), some (findByIdAndUpdate now body t))) := by
  constructor
  · intro hb
    unfold updateTask
    dsimp only
    rw [if_neg (by simp [hassign]),
        if_pos (show u.role = Role.employee ∧ _ from ⟨hrole, hb⟩)]
  · intro hb
    unfold updateTask
    dsimp only
    have hneg : ¬(u.role = Role.employee ∧
        (body.any fun fu => !(allowedEmployeeFields.contains fu.fieldName)) = true) := by
      rintro ⟨-, hc⟩
      rw [hb] at hc
      exact Bool.noConfusion hc
    rw [if_neg (by simp [hassign]), if_neg hneg]

/-- C7, witness: a body containing title is rejected whole for the assignee
Employee, with the stored task unchanged. -/
theorem C7_witness :
    plainEmployee.role = .employee
    ∧ sampleTask.assignedTo = plainEmployee.id
    ∧ ([FieldUpdate.setTitle "x"].any
        (fun fu => !(allowedEmployeeFields.contains fu.fieldName)) = true)
    ∧ updateTask 100 plainEmployee (some sampleTask) [FieldUpdate.setTitle "x"]
        = (.forbidden "Employees can only update: status, comments", some sampleTask) := by
  refine ⟨rfl, rfl, by decide, ?_⟩
  exact (C7_employee_field_whitelist 100 plainEmployee sampleTask
    [FieldUpdate.setTitle "x"] rfl rfl).1 (by decide)

/-- C8, counterexample: an Employee with the project_manager designation
deletes a task they did not create (assignedBy is someone else) and the
delete succeeds, contradicting the claim that such a delete is denied. -/
theorem C8_counterexample :
    foreignTask.assignedBy ≠ pmEmployee.id
    ∧ deleteTask pmEmployee (some foreignTask) = (.ok (), none) := by
  exact ⟨by decide, rfl⟩

/-- C8, amended: deletion is decided by role and designation alone, with no
check of any relationship to the task: Admin, ProjectManager, and a
PM-designated Employee may delete any task, while a plain Employee may
delete none. -/
theorem C8_delete_role_only (u : Principal) (t : Task) :
    (u.role = .admin ∨ u.role = .projectManager ∨
        (u.role = .employee ∧ u.designation = "project_manager") →
      deleteTask u (some t) = (.ok (), none))
    ∧ (u.role = .employee → u.designation ≠ "project_manager" →
      deleteTask u (some t)
        = (.forbidden "Only administrators and project managers can delete tasks", some t)) := by
  constructor
  · intro h
    unfold deleteTask
    dsimp only
    rw [if_pos h]
  · intro h1 h2
    have hneg : ¬(u.role = .admin ∨ u.role = .projectManager ∨
        (u.role = .employee ∧ u.designation = "project_manager")) := by
      rintro (h | h | ⟨-, h⟩)
      · rw [h1] at h
        exact Role.noConfusion h
      · rw [h1] at h
        exact Role.noConfusion h
      · exact h2 h
    unfold deleteTask
    dsimp only
    rw [if_neg hneg]

/-- C8, witness: a plain Employee cannot delete, a PM-designated Employee
deletes a foreign task. -/
theorem C8_witness :
    plainEmployee.role = .employee
    ∧ plainEmployee.designation ≠ "project_manager"
    ∧ deleteTask plainEmployee (some foreignTask)
        = (.forbidden "Only administrators and project managers can delete tasks",
           some foreignTask) := by
  refine ⟨rfl, by decide, ?_⟩
  exact (C8_delete_role_only plainEmployee foreignTask).2 rfl (by decide)

def staleTask : Task :=
  { title := "t", description := "d", assignedTo := 1, assignedBy := 2, dueDate := 0 }

def staleDoc : Doc := { task := staleTask }

/-- C2, counterexample: at time 100 the stored task is past due (dueDate 0)
with stored status Pending, yet get-by-id returns the stored status Pending,
not the claimed effective status Overdue: reads do not derive the status. -/
theorem C2_counterexample :
    staleTask.dueDate < 100
    ∧ staleTask.status = .pending
    ∧ getTaskById plainEmployee (some staleTask) = .ok staleTask
    ∧ staleTask.status ≠ .overdue := by
  refine ⟨by decide, rfl, rfl, by decide⟩

/-- C2, amended: the Overdue promotion happens on write and is persisted, not
derived on read: any save at a time past the due date of a non-terminal,
non-overdue task stores status Overdue, while get-by-id returns the stored
task unchanged (a task created with a past due date is therefore fetched as
Overdue only because its creation save already stored Overdue). -/
theorem C2_overdue_on_write_only (now : Int) (d : Doc) (u : Principal) (t : Task)
    (hdue : d.task.dueDate < now)
    (h1 : d.task.status ≠ .completed) (h2 : d.task.status ≠ .cancelled)
    (h3 : d.task.status ≠ .overdue)
    (hread : ¬(u.role = .employee ∧ t.assignedTo ≠ u.id)) :
    (saveDoc now d).task.status = .overdue
    ∧ getTaskById u (some t) = .ok t := by
  constructor
  · rw [saveDoc_status, if_pos ⟨hdue, h1, h2, h3⟩]
  · unfold getTaskById
    dsimp only
    rw [if_neg hread]

/-- C2, witness: the amended theorem at a concrete input, together with the
creation scenario: a task created at time 100 with dueDate 0 is stored as
Overdue. -/
theorem C2_witness :
    staleDoc.task.dueDate < 100
    ∧ staleDoc.task.status ≠ .completed
    ∧ (saveDoc 100 staleDoc).task.status = .overdue
    ∧ getTaskById adminUser (some staleTask) = .ok staleTask
    ∧ (createTask 100 2 "t" "d" 1 0).task.status = .overdue := by
  have h := C2_overdue_on_write_only 100 staleDoc adminUser staleTask
    (by decide) (by decide) (by decide) (by decide) (by decide)
  exact ⟨by decide, by decide, h.1, h.2, rfl⟩

def freshActiveDoc : Doc :=
  { task := { title := "t", description := "d", assignedTo := 1, assignedBy := 2,
              dueDate := 10000000000, status := .inProgress,
              timeTracking := { totalTimeSpent := 0, sessions := [], isActive := true,
                                currentSessionStart := some 0 } } }

/-- C5, confirmed: totalTimeSpent equals the sum of the session durations
after any sequence of start/stop operations (given it held initially, as on
a fresh task where both are zero), and each stop on an active task appends
exactly the session record built from currentSessionStart and now, adds its
duration to totalTimeSpent, and clears isActive and currentSessionStart. -/
theorem C5_total_time_invariant (d : Doc) (ops : List TrackOp) (now : Int) (notes : String)
    (hinv : timeInvariant d.task) :
    timeInvariant (runOps d ops).task
    ∧ (d.task.timeTracking.isActive = true →
        ∃ d2, stopTimeTracking now notes d = .ok d2
          ∧ d2.task.timeTracking.sessions = d.task.timeTracking.sessions ++
              [{ startTime := d.task.timeTracking.currentSessionStart.getD 0,
                 endTime := now,
                 duration := now - d.task.timeTracking.currentSessionStart.getD 0,
                 notes := notes }]
          ∧ d2.task.timeTracking.totalTimeSpent = d.task.timeTracking.totalTimeSpent +
              (now - d.task.timeTracking.currentSessionStart.getD 0)
          ∧ d2.task.timeTracking.isActive = false
          ∧ d2.task.timeTracking.currentSessionStart = none) := by
  constructor
  · exact runOps_invariant ops d hinv
  · intro hact
    refine ⟨saveDoc now { d with task := stopSessionState now notes d.task },
      stopTimeTracking_ok now notes d hact, ?_, ?_, ?_, ?_⟩ <;>
      rw [saveDoc_timeTracking_inactive now _
        (show ({ d with task := stopSessionState now notes d.task } :
          Doc).task.timeTracking.isActive = false from rfl)] <;>
      rfl

/-- C5, witness: the spec scenario at a concrete input: a session started at
time 0 is stopped at time 1800000 (30 minutes) with notes "lunch". -/
theorem C5_witness :
    timeInvariant freshActiveDoc.task
    ∧ freshActiveDoc.task.timeTracking.isActive = true
    ∧ timeInvariant (runOps freshActiveDoc [TrackOp.stopOp 1800000 "lunch"]).task
    ∧ ∃ d2, stopTimeTracking 1800000 "lunch" freshActiveDoc = .ok d2
        ∧ d2.task.timeTracking.sessions =
            [{ startTime := 0, endTime := 1800000, duration := 1800000, notes := "lunch" }]
        ∧ d2.task.timeTracking.totalTimeSpent = 1800000
        ∧ d2.task.timeTracking.isActive = false
        ∧ d2.task.timeTracking.currentSessionStart = none := by
  have h := C5_total_time_invariant freshActiveDoc [TrackOp.stopOp 1800000 "lunch"]
    1800000 "lunch" (by unfold timeInvariant; rfl)
  refine ⟨by unfold timeInvariant; rfl, rfl, h.1, ?_⟩
  obtain ⟨d2, hok, hs, ht, hia, hc⟩ := h.2 rfl
  refine ⟨d2, hok, ?_, ?_, hia, hc⟩
  · rw [hs]
    rfl
  · rw [ht]
    rfl

/-- C3, confirmed: completing a task in a non-terminal status through the
controller, as the assignee, yields status Completed, completedDate set,
isActive false, exactly one new statusHistory entry carrying Completed (with
the default reason, attributed to the caller), and, when a session was
active, exactly one session appended with note "Task completed". -/
theorem C3_complete (now : Int) (user : Principal) (d : Doc)
    (hassign : d.task.assignedTo = user.id)
    (hMod : d.statusModified = false) (hNew : d.isNew = false)
    (hreason : d.task.statusChangeReason = none)
    (h1 : d.task.status ≠ .completed) (h2 : d.task.status ≠ .cancelled) :
    ∃ d2, completeTask now user (some d) = (.ok d2, some d2)
      ∧ d2.task.status = .completed
      ∧ d2.task.completedDate = some now
      ∧ d2.task.timeTracking.isActive = false
      ∧ d2.task.statusHistory = d.task.statusHistory ++
          [{ status := .completed, changedBy := user.id, changedAt := now,
             reason := "Status updated" }]
      ∧ (d.task.timeTracking.isActive = true →
          d2.task.timeTracking.sessions = d.task.timeTracking.sessions ++
            [{ startTime := d.task.timeTracking.currentSessionStart.getD 0,
               endTime := now,
               duration := now - d.task.timeTracking.currentSessionStart.getD 0,
               notes := "Task completed" }])
      ∧ (d.task.timeTracking.isActive = false →
          d2.task.timeTracking.sessions = d.task.timeTracking.sessions) := by
  have hbne : (d.task.status != TaskStatus.completed) = true := by
    simp only [bne_iff_ne, ne_eq]
    exact h1
  refine ⟨markAsCompleted now user.id d, ?_, ?_⟩
  · unfold completeTask
    dsimp only
    rw [if_neg (by simp [hassign])]
  · obtain ⟨⟨ttl, dsc, ato, aby, st, pr, due, sd, cd, eh, tt, cat, tg, cm, sh, ca, ua, mb, scr⟩,
      sm, inew⟩ := d
    obtain ⟨tot, sess, act, cur⟩ := tt
    dsimp only at hMod hNew hreason hbne
    subst hMod hNew hreason
    cases act <;>
      simp [markAsCompleted, Doc.setStatus, stopTimeTracking, stopSessionState,
        saveDoc, preSaveStatusHistory, preSaveOverdue, pushHistory, applyCompletedHook,
        applyStartDateHook, hbne]

/-- C3, witness: completion of a concrete in-progress task with an active
session started at time 0, completed at time 77 by the assignee. -/
theorem C3_witness :
    activeDoc.task.assignedTo = plainEmployee.id
    ∧ activeDoc.task.status ≠ .completed
    ∧ ∃ d2, completeTask 77 plainEmployee (some activeDoc) = (.ok d2, some d2)
        ∧ d2.task.status = .completed
        ∧ d2.task.completedDate = some 77
        ∧ d2.task.timeTracking.isActive = false
        ∧ d2.task.statusHistory =
            [{ status := .completed, changedBy := plainEmployee.id, changedAt := 77,
               reason := "Status updated" }]
        ∧ d2.task.timeTracking.sessions =
            [{ startTime := 0, endTime := 77, duration := 77, notes := "Task completed" }] := by
  have h := C3_complete 77 plainEmployee activeDoc rfl rfl rfl rfl (by decide) (by decide)
  obtain ⟨d2, hok, hst, hcd, hia, hsh, hses, -⟩ := h
  refine ⟨rfl, by decide, d2, hok, hst, hcd, hia, ?_, ?_⟩
  · rw [hsh]
    rfl
  · rw [hses rfl]
    rfl

def lateDoc : Doc :=
  { task := { title := "t", description := "d", assignedTo := 1, assignedBy := 2,
              status := .inProgress, dueDate := 0 } }

def doneDoc : Doc :=
  { task := { title := "t", description := "d", assignedTo := 1, assignedBy := 2,
              status := .completed, dueDate := 1000 } }

/-- C10, counterexample: start by the assignee on an inactive, in-progress,
past-due task succeeds, but the save-time overdue middleware changes the
status to Overdue even though the status was not Pending, contradicting the
claim that the status is left unchanged unless it was Pending. -/
theorem C10_counterexample :
    lateDoc.task.timeTracking.isActive = false
    ∧ lateDoc.task.status = .inProgress
    ∧ startTask 100 plainEmployee (some lateDoc)
        = (.ok (saveDoc 100 (startSessionState 100 lateDoc)),
           some (saveDoc 100 (startSessionState 100 lateDoc)))
    ∧ (saveDoc 100 (startSessionState 100 lateDoc)).task.status = .overdue := by
  refine ⟨rfl, rfl, rfl, rfl⟩

/-- C10, amended: start performs no status check: for any inactive task the
assignee may start it, even from a terminal status, setting isActive and
currentSessionStart; Pending is promoted to InProgress; terminal statuses
are never changed; however the save run by start also applies the overdue
middleware, so a non-terminal status with a past due date is stored as
Overdue rather than left unchanged. -/
theorem C10_start_no_status_check (now : Int) (u : Principal) (d : Doc)
    (hassign : d.task.assignedTo = u.id)
    (hin : d.task.timeTracking.isActive = false)
    (hMod : d.statusModified = false) (hNew : d.isNew = false) :
    ∃ d2, startTask now u (some d) = (.ok d2, some d2)
      ∧ d2.task.timeTracking.isActive = true
      ∧ d2.task.timeTracking.currentSessionStart = some now
      ∧ (d.task.status = .completed → d2.task.status = .completed)
      ∧ (d.task.status = .cancelled → d2.task.status = .cancelled)
      ∧ (d.task.status = .pending → ¬ d.task.dueDate < now → d2.task.status = .inProgress)
      ∧ (d.task.status ≠ .completed → d.task.status ≠ .cancelled → d.task.dueDate < now →
          d2.task.status = .overdue)
      ∧ (d.task.status ≠ .pending → ¬ d.task.dueDate < now → d2.task.status = d.task.status) := by
  refine ⟨saveDoc now (startSessionState now d), ?_, ?_⟩
  · unfold startTask
    dsimp only
    rw [if_neg (by simp [hassign])]
    unfold startTimeTracking
    rw [if_neg (by simp [hin])]
  · obtain ⟨⟨ttl, dsc, ato, aby, st, pr, due, sd, cd, eh, tt, cat, tg, cm, sh, ca, ua, mb, scr⟩,
      sm, inew⟩ := d
    obtain ⟨tot, sess, act, cur⟩ := tt
    dsimp only at hin hMod hNew
    subst hin hMod hNew
    by_cases hdue : due < now
    · cases st <;>
        simp [startSessionState, Doc.setStatus, saveDoc, preSaveStatusHistory,
          preSaveOverdue, pushHistory, applyCompletedHook, applyStartDateHook_status,
          applyStartDateHook_timeTracking, applyStartDateHook_dueDate, hdue]
    · cases st <;>
        simp [startSessionState, Doc.setStatus, saveDoc, preSaveStatusHistory,
          preSaveOverdue, pushHistory, applyCompletedHook, applyStartDateHook_status,
          applyStartDateHook_timeTracking, applyStartDateHook_dueDate, hdue]

/-- C10, witness: start succeeds on a terminal (Completed) inactive task and
leaves the terminal status unchanged. -/
theorem C10_witness :
    doneDoc.task.timeTracking.isActive = false
    ∧ doneDoc.task.status = .completed
    ∧ ∃ d2, startTask 100 plainEmployee (some doneDoc) = (.ok d2, some d2)
        ∧ d2.task.timeTracking.isActive = true
        ∧ d2.task.timeTracking.currentSessionStart = some 100
        ∧ d2.task.status = .completed := by
  have h := C10_start_no_status_check 100 plainEmployee doneDoc rfl rfl rfl rfl
  obtain ⟨d2, hok, hia, hcs, hcomp, -, -, -, -⟩ := h
  exact ⟨rfl, rfl, d2, hok, hia, hcs, hcomp rfl⟩

theorem filterAccepts_assignedTo {f : Filter} {t : Task} (h : filterAccepts f t = true) :
    f.assignedTo.all (fun u2 => t.assignedTo == u2) = true := by
  unfold filterAccepts at h
  simp only [Bool.and_eq_true] at h
  tauto

theorem filterAccepts_or {f : Filter} {t : Task} (h : filterAccepts f t = true) :
    f.orClauses.all (fun cs => cs.any (orClauseHolds t)) = true := by
  unfold filterAccepts at h
  simp only [Bool.and_eq_true] at h
  tauto

theorem buildFilter_employee_pm (u : Principal) (q : Query)
    (hrole : u.role = .employee) (hd : u.designation = "project_manager") :
    buildFilter u q =
      { status := q.status, priority := q.priority, assignedTo := q.assignedTo,
        assignedBy := q.assignedBy, createdAtGte := q.startDate, createdAtLte := q.endDate,
        orClauses := some [.assignedToEq u.id, .assignedByEq u.id] } := by
  obtain ⟨qs, qp, qat, qab, qsr, qsd, qed⟩ := q
  cases qsr <;>
    (unfold buildFilter
     dsimp only
     rw [if_pos hrole, if_pos hd])

theorem buildFilter_employee_plain (u : Principal) (q : Query)
    (hrole : u.role = .employee) (hd : ¬ u.designation = "project_manager") :
    buildFilter u q =
      { status := q.status, priority := q.priority, assignedTo := some u.id,
        assignedBy := q.assignedBy, createdAtGte := q.startDate, createdAtLte := q.endDate,
        orClauses := match q.search with
          | some s => some [.titleSearch s, .descriptionSearch s]
          | none => none } := by
  obtain ⟨qs, qp, qat, qab, qsr, qsd, qed⟩ := q
  cases qsr <;>
    (unfold buildFilter
     dsimp only
     rw [if_pos hrole, if_neg hd])

def ownTask : Task :=
  { title := "alpha", description := "beta", assignedTo := 1, assignedBy := 2, dueDate := 1000 }

/-- C9, counterexample: a PM-designated Employee lists with search "zzz" and
still receives a task matching neither title nor description: the role-scope
narrowing overwrites the $or key holding the search clauses, so the search
criterion is dropped rather than combined. -/
theorem C9_counterexample :
    getAllTasks pmEmployee { search := some "zzz" } [ownTask] = [ownTask]
    ∧ containsCI ownTask.title "zzz" = false
    ∧ containsCI ownTask.description "zzz" = false := by
  refine ⟨by decide, by decide, by decide⟩

/-- C9, amended: role-scoped narrowing is applied on top of user filters for
a plain Employee, whose results all satisfy assignedTo = self while still
matching any free-text search in the same request; for a PM-designated
Employee the results satisfy assignedTo = self or assignedBy = self, but a
supplied search criterion is discarded: the built filter equals the one
built with no search at all. -/
theorem C9_role_scoped_listing (u : Principal) (q : Query) (store : List Task) (t : Task)
    (hrole : u.role = .employee) (hmem : t ∈ getAllTasks u q store) :
    (u.designation ≠ "project_manager" →
      t.assignedTo = u.id ∧
      ∀ s, q.search = some s →
        (containsCI t.title s = true ∨ containsCI t.description s = true))
    ∧ (u.designation = "project_manager" →
      (t.assignedTo = u.id ∨ t.assignedBy = u.id)
      ∧ buildFilter u q = buildFilter u { q with search := none }) := by
  unfold getAllTasks at hmem
  rw [List.mem_filter] at hmem
  obtain ⟨-, hacc⟩ := hmem
  by_cases hd : u.designation = "project_manager"
  · refine ⟨fun hdn => absurd hd hdn, fun _ => ?_⟩
    rw [buildFilter_employee_pm u q hrole hd] at hacc
    have horc := filterAccepts_or hacc
    simp [orClauseHolds] at horc
    refine ⟨horc, ?_⟩
    rw [buildFilter_employee_pm u q hrole hd,
        buildFilter_employee_pm u { q with search := none } hrole hd]
  · refine ⟨fun _ => ?_, fun hdp => absurd hdp hd⟩
    rw [buildFilter_employee_plain u q hrole hd] at hacc
    have hat := filterAccepts_assignedTo hacc
    simp at hat
    refine ⟨hat, ?_⟩
    intro s hs
    have horc := filterAccepts_or hacc
    rw [hs] at horc
    simp [orClauseHolds] at horc
    exact horc

/-- C9, witness: a plain Employee listing with a search receives only tasks
assigned to them that match the search, at a concrete input. -/
theorem C9_witness :
    plainEmployee.role = .employee
    ∧ ownTask ∈ getAllTasks plainEmployee { search := some "ALPH" } [ownTask]
    ∧ (plainEmployee.designation ≠ "project_manager" →
        ownTask.assignedTo = plainEmployee.id ∧
        ∀ s, ({ search := some "ALPH" } : Query).search = some s →
          (containsCI ownTask.title s = true ∨ containsCI ownTask.description s = true)) := by
  refine ⟨rfl, by decide, ?_⟩
  exact (C9_role_scoped_listing plainEmployee { search := some "ALPH" } [ownTask] ownTask
    rfl (by decide)).1

end TaskEngine
